import Mathlib

/-!
Shallow embedding of the poll store service of the ALX Polly single-page
polling application (`src/services/pollService.ts`).

Local storage is modelled by `Storage`: the poll-collection key
(`polly_polls`) as an `Option (List Poll)` (absent or a parsed list) and the
session key (`polly_current_user`) as an `Option User`.  JavaScript throws
are modelled by returning `Except ServiceError _` paired with the storage
that results from the call; a throw happens before any write in the source,
so failing branches return the input storage unchanged.  The error taxonomy
(`NotFoundError` / `ConflictError` / `ValidationError`) tags each throw site
with the class the specification assigns to its message; the exact message
strings of the source are carried along.  The nondeterministic `Date.now()`
used for fresh identifiers is passed in as an explicit `now : Nat`.
-/

/-- A user record: `{ id, username }` from `types.ts`. -/
structure User where
  id : String
  username : String
deriving DecidableEq

/-- A poll option: `{ id, text, votes }` from `types.ts`. -/
structure PollOption where
  id : String
  text : String
  votes : Nat
deriving DecidableEq

/-- A poll: `{ id, question, options, createdBy, votedBy }` from `types.ts`. -/
structure Poll where
  id : String
  question : String
  options : List PollOption
  createdBy : String
  votedBy : List String
deriving DecidableEq

/-- Error classes of the specification's taxonomy, carrying the exact
message string thrown at the corresponding site of `pollService.ts`. -/
inductive ServiceError where
  | NotFoundError (message : String)
  | ConflictError (message : String)
  | ValidationError (message : String)
deriving DecidableEq

/-- The two localStorage keys the service reads and writes:
`polly_polls` and `polly_current_user`.  `none` models an absent key. -/
structure Storage where
  polls : Option (List Poll)
  currentUser : Option User
deriving DecidableEq

/-- The fixed seed data of the self-invoking initializer block in
`pollService.ts` (lines 14-43). -/
def initialPolls : List Poll :=
  [ { id := "poll-1"
      question := "What is your favorite frontend framework?"
      options :=
        [ { id := "opt-1-1", text := "React", votes := 15 }
        , { id := "opt-1-2", text := "Vue", votes := 8 }
        , { id := "opt-1-3", text := "Svelte", votes := 12 }
        , { id := "opt-1-4", text := "Angular", votes := 3 } ]
      createdBy := "user-1"
      votedBy := [] }
  , { id := "poll-2"
      question := "Which ALX track is the most challenging?"
      options :=
        [ { id := "opt-2-1", text := "Foundations", votes := 5 }
        , { id := "opt-2-2", text := "Specialization (e.g., Frontend)", votes := 20 }
        , { id := "opt-2-3", text := "Project Phase", votes := 18 } ]
      createdBy := "user-2"
      votedBy := [] } ]

/-- The self-invoking seeding block: if the poll-collection key is absent,
store `initialPolls`; otherwise leave storage untouched. -/
def seed (s : Storage) : Storage :=
  match s.polls with
  | none => { s with polls := some initialPolls }
  | some _ => s

/-- Storage with both keys absent: the state before first load. -/
def emptyStore : Storage := { polls := none, currentUser := none }

/-- The storage right after seeding an empty store. -/
def seedStore : Storage := seed emptyStore

/-- JavaScript's `String.prototype.trim`: strips whitespace from both ends
of the string.  Written as structural recursion over the character list so
that it evaluates inside the kernel. -/
def strTrim (s : String) : String :=
  ⟨((s.data.dropWhile Char.isWhitespace).reverse.dropWhile Char.isWhitespace).reverse⟩

/-- `signIn(username)`: rejects a falsy username or one whose trimmed length
is below 3, otherwise builds a fresh user with the trimmed username and
stores it as the current session record (lines 56-69). -/
def signIn (s : Storage) (username : String) (now : Nat) :
    Except ServiceError User × Storage :=
  if username == "" || (strTrim username).length < 3 then
    (.error (.ValidationError "Username must be at least 3 characters long."), s)
  else
    let newUser : User := { id := "user-" ++ toString now, username := strTrim username }
    (.ok newUser, { s with currentUser := some newUser })

/-- `getCurrentUser()`: reads the session record (lines 86-89). -/
def getCurrentUser (s : Storage) : Option User :=
  s.currentUser

/-- `getPolls()`: parses the poll-collection key, defaulting to the empty
list when the key is absent (lines 98-103). -/
def getPolls (s : Storage) : List Poll :=
  match s.polls with
  | some polls => polls
  | none => []

/-- The new poll record built by `createPoll` (lines 122-132): fresh ids
from `now`, each option's `text` taken verbatim from the input string,
all vote counts zero, empty `votedBy`. -/
def mkNewPoll (question : String) (options : List String) (userId : String)
    (now : Nat) : Poll :=
  { id := "poll-" ++ toString now
    question := question
    options := options.enum.map (fun io =>
      { id := "opt-" ++ toString now ++ "-" ++ toString io.1
        text := io.2
        votes := 0 })
    createdBy := userId
    votedBy := [] }

/-- `createPoll(question, options, userId)`: rejects a blank question,
fewer than two options, or any option that is blank after trimming;
otherwise appends the new poll to the stored collection (lines 113-139). -/
def createPoll (s : Storage) (question : String) (options : List String)
    (userId : String) (now : Nat) : Except ServiceError Poll × Storage :=
  if strTrim question == "" || options.length < 2
      || options.any (fun opt => strTrim opt == "") then
    (.error (.ValidationError
      "A poll requires a question and at least two non-empty options."), s)
  else
    let newPoll := mkNewPoll question options userId now
    let polls := getPolls s
    (.ok newPoll, { s with polls := some (polls ++ [newPoll]) })

/-- `poll.options[optionIndex].votes += 1` where `optionIndex` is the first
index whose option id matches: increments the first matching option's vote
count, leaving every other option untouched. -/
def voteOption (optionId : String) : List PollOption → List PollOption
  | [] => []
  | o :: rest =>
    if o.id == optionId then { o with votes := o.votes + 1 } :: rest
    else o :: voteOption optionId rest

/-- `polls[pollIndex] = poll` where `pollIndex` is the first index whose
poll id matches: replaces the first matching poll, leaving the rest. -/
def setPoll (pollId : String) (updated : Poll) : List Poll → List Poll
  | [] => []
  | p :: rest =>
    if p.id == pollId then updated :: rest
    else p :: setPoll pollId updated rest

/-- `castVote(pollId, optionId, userId)` (lines 154-186): finds the poll,
rejects when absent, rejects a duplicate voter, rejects an unknown option
id, and otherwise increments the chosen option, records the voter, writes
the collection back and returns the updated poll. -/
def castVote (s : Storage) (pollId optionId userId : String) :
    Except ServiceError Poll × Storage :=
  let polls := getPolls s
  match polls.find? (fun p => p.id == pollId) with
  | none => (.error (.NotFoundError "Poll not found. It may have been deleted."), s)
  | some poll =>
    if poll.votedBy.contains userId then
      (.error (.ConflictError "You have already voted on this poll."), s)
    else
      match poll.options.find? (fun o => o.id == optionId) with
      | none => (.error (.ValidationError "Invalid option selected."), s)
      | some _ =>
        let updatedPoll : Poll :=
          { poll with
              options := voteOption optionId poll.options
              votedBy := poll.votedBy ++ [userId] }
        (.ok updatedPoll, { s with polls := some (setPoll pollId updatedPoll polls) })

/-- Total number of votes recorded across a poll's options. -/
def sumVotes (p : Poll) : Nat :=
  (p.options.map PollOption.votes).sum

/-- C10: when the poll-collection key is absent from storage, `getPolls`
does not fail: it returns the empty sequence. -/
theorem C10_getPolls_absent_key (s : Storage) (h : s.polls = none) :
    getPolls s = [] := by
  simp [getPolls, h]

/-- Witness for C10 at the empty store. -/
theorem C10_getPolls_absent_key_witness :
    emptyStore.polls = none ∧ getPolls emptyStore = [] :=
  ⟨rfl, C10_getPolls_absent_key emptyStore rfl⟩

/-- C7: for every username whose trimmed length is below 3, `signIn` fails
with the `ValidationError` of the source and the session record is
unchanged: `getCurrentUser` gives the same result before and after. -/
theorem C7_signIn_short_username (s : Storage) (username : String) (now : Nat)
    (h : (strTrim username).length < 3) :
    signIn s username now =
      (.error (.ValidationError "Username must be at least 3 characters long."), s) ∧
    getCurrentUser (signIn s username now).2 = getCurrentUser s := by
  have hcond : (username == "" || decide ((strTrim username).length < 3)) = true := by
    simp [h]
  constructor
  · simp [signIn, hcond]
  · simp [signIn, hcond]

/-- Witness for C7 at the two-character username "ab". -/
theorem C7_signIn_short_username_witness :
    (strTrim "ab").length < 3 ∧
    (signIn seedStore "ab" 0 =
      (.error (.ValidationError "Username must be at least 3 characters long."), seedStore) ∧
    getCurrentUser (signIn seedStore "ab" 0).2 = getCurrentUser seedStore) :=
  ⟨by decide, C7_signIn_short_username seedStore "ab" 0 (by decide)⟩

/-- C8: for every username whose trimmed length is at least 3, `signIn`
succeeds, returns a `User` whose username is the trimmed input, replaces the
session record with that user, and a subsequent `getCurrentUser` returns a
user with that trimmed username. -/
theorem C8_signIn_valid (s : Storage) (username : String) (now : Nat)
    (h : 3 ≤ (strTrim username).length) :
    signIn s username now =
      (.ok { id := "user-" ++ toString now, username := strTrim username },
       { s with currentUser := some (User.mk ("user-" ++ toString now) (strTrim username)) }) ∧
    getCurrentUser (signIn s username now).2 =
      some { id := "user-" ++ toString now, username := strTrim username } := by
  have h0 : ¬ (strTrim username).length < 3 := Nat.not_lt.mpr h
  have hne : (username == "") = false := by
    rw [beq_eq_false_iff_ne]
    intro he
    rw [he] at h
    have hz : (strTrim "").length = 0 := by decide
    omega
  constructor
  · simp [signIn, hne, h0, User.mk]
  · simp [signIn, hne, h0, getCurrentUser]

/-- Witness for C8 at username " alice " (trims to "alice"). -/
theorem C8_signIn_valid_witness :
    3 ≤ (strTrim " alice ").length ∧
    (signIn emptyStore " alice " 7 =
      (.ok { id := "user-7", username := "alice" },
       { emptyStore with currentUser := some (User.mk "user-7" "alice") }) ∧
    getCurrentUser (signIn emptyStore " alice " 7).2 =
      some { id := "user-7", username := "alice" }) :=
  ⟨by decide, C8_signIn_valid emptyStore " alice " 7 (by decide)⟩

/-- C1 counterexample: immediately after seeding an empty store, the seed
poll `poll-1` carries 38 votes across its options while its `votedBy` list
is empty, so the claimed sum-of-votes invariant fails at that observation
point. -/
theorem C1_counterexample :
    ¬ ∀ p ∈ getPolls seedStore, sumVotes p = p.votedBy.length := by
  decide

/-- C2 counterexample: `createPoll` does not discard blank options — at the
spec's concrete scenario input it fails with the validation error instead of
succeeding, leaving storage unchanged. -/
theorem C2_counterexample :
    createPoll seedStore "Lunch?" ["Pizza", "", "Tacos", "  "] "user-7" 0 =
      (.error (.ValidationError
        "A poll requires a question and at least two non-empty options."), seedStore) := by
  rfl

/-- C6 counterexample: a valid call whose first option carries surrounding
whitespace yields a `PollOption` whose `text` is the raw input string
" Pizza ", not its trimmed form. -/
theorem C6_counterexample :
    (createPoll seedStore "Q" [" Pizza ", "Tacos"] "user-7" 0).1 =
      .ok { id := "poll-0"
            question := "Q"
            options :=
              [ { id := "opt-0-0", text := " Pizza ", votes := 0 }
              , { id := "opt-0-1", text := "Tacos", votes := 0 } ]
            createdBy := "user-7"
            votedBy := [] } ∧
    " Pizza " ≠ strTrim " Pizza " := by
  constructor
  · rfl
  · decide

/-- Helper: `find?` over a list that splits as a prefix of misses followed
by a hit returns the hit. -/
theorem find?_split_eq_some {α : Type} (p : α → Bool) (pre : List α) (x : α)
    (post : List α) (hpre : ∀ y ∈ pre, p y = false) (hx : p x = true) :
    (pre ++ x :: post).find? p = some x := by
  induction pre with
  | nil => simpa using List.find?_cons_of_pos post hx
  | cons a as ih =>
    have ha : ¬ p a = true := by simp [hpre a (by simp)]
    have step := List.find?_cons_of_neg (as ++ x :: post) ha
    simpa [step] using ih (fun y hy => hpre y (by simp [hy]))

/-- Helper: `voteOption` on a list splitting as misses, the hit, and a tail
increments exactly the hit and leaves everything else unchanged. -/
theorem voteOption_split (optionId : String) (pre : List PollOption)
    (o : PollOption) (post : List PollOption)
    (hpre : ∀ x ∈ pre, (x.id == optionId) = false)
    (ho : (o.id == optionId) = true) :
    voteOption optionId (pre ++ o :: post) =
      pre ++ { o with votes := o.votes + 1 } :: post := by
  induction pre with
  | nil => simp [voteOption, ho]
  | cons a as ih =>
    have ha : (a.id == optionId) = false := hpre a (by simp)
    simp only [List.cons_append, voteOption, ha, Bool.false_eq_true, if_false]
    exact congrArg (fun l => a :: l) (ih (fun x hx => hpre x (by simp [hx])))

/-- Helper: `setPoll` on a list splitting as misses, the hit, and a tail
replaces exactly the hit and leaves everything else unchanged. -/
theorem setPoll_split (pollId : String) (updated : Poll) (lpre : List Poll)
    (q : Poll) (lpost : List Poll)
    (hpre : ∀ r ∈ lpre, (r.id == pollId) = false)
    (hq : (q.id == pollId) = true) :
    setPoll pollId updated (lpre ++ q :: lpost) = lpre ++ updated :: lpost := by
  induction lpre with
  | nil => simp [setPoll, hq]
  | cons a as ih =>
    have ha : (a.id == pollId) = false := hpre a (by simp)
    simp only [List.cons_append, setPoll, ha, Bool.false_eq_true, if_false]
    exact congrArg (fun l => a :: l) (ih (fun r hr => hpre r (by simp [hr])))

/-- C3: voting on a stored poll by a fresh user with a valid option id
succeeds, increments exactly that option's vote count by 1, appends the user
to `votedBy`, returns the updated poll, and changes nothing else: every
other poll, the poll's other fields, and the session record are untouched.
The store is described by its unique split around the first poll whose id is
`pollId`, and the poll's options by their split around the first option
whose id is `optionId`. -/
theorem C3_castVote_success (s : Storage) (pollId optionId userId : String)
    (lpre lpost : List Poll) (poll : Poll)
    (pre post : List PollOption) (o : PollOption)
    (hpolls : getPolls s = lpre ++ poll :: lpost)
    (hlpre : ∀ q ∈ lpre, q.id ≠ pollId)
    (hpid : poll.id = pollId)
    (hvoted : userId ∉ poll.votedBy)
    (hopts : poll.options = pre ++ o :: post)
    (hpre : ∀ x ∈ pre, x.id ≠ optionId)
    (hoid : o.id = optionId) :
    castVote s pollId optionId userId =
      (.ok { id := poll.id, question := poll.question,
             options := pre ++ { o with votes := o.votes + 1 } :: post,
             createdBy := poll.createdBy,
             votedBy := poll.votedBy ++ [userId] },
       { s with polls := some (lpre ++
          (Poll.mk poll.id poll.question (pre ++ { o with votes := o.votes + 1 } :: post)
            poll.createdBy (poll.votedBy ++ [userId])) :: lpost) }) := by
  have hlpreb : ∀ q ∈ lpre, (q.id == pollId) = false := fun q hq =>
    beq_eq_false_iff_ne.mpr (hlpre q hq)
  have hpreb : ∀ x ∈ pre, (x.id == optionId) = false := fun x hx =>
    beq_eq_false_iff_ne.mpr (hpre x hx)
  have hfind : (getPolls s).find? (fun p => p.id == pollId) = some poll := by
    rw [hpolls]
    exact find?_split_eq_some _ _ _ _ hlpreb (by simp [hpid])
  have hcont : poll.votedBy.contains userId = false := by
    simpa using hvoted
  have hfindo : poll.options.find? (fun q => q.id == optionId) = some o := by
    rw [hopts]
    exact find?_split_eq_some _ _ _ _ hpreb (by simp [hoid])
  have hvo : voteOption optionId poll.options =
      pre ++ { o with votes := o.votes + 1 } :: post := by
    rw [hopts]
    exact voteOption_split _ _ _ _ hpreb (by simp [hoid])
  simp only [castVote, hfind, hcont, Bool.false_eq_true, if_false, hfindo, hvo]
  rw [hpolls, setPoll_split _ _ _ _ _ hlpreb (by simp [hpid])]

/-- Witness for C3 at the spec's concrete scenario: voting `opt-1-2` on the
seed poll `poll-1` as the fresh user `user-42` bumps Vue from 8 to 9 and
records the voter. -/
theorem C3_castVote_success_witness :
    castVote seedStore "poll-1" "opt-1-2" "user-42" =
      (.ok { id := "poll-1",
             question := "What is your favorite frontend framework?",
             options :=
               [ { id := "opt-1-1", text := "React", votes := 15 } ] ++
               { id := "opt-1-2", text := "Vue", votes := 8 + 1 } ::
               [ { id := "opt-1-3", text := "Svelte", votes := 12 }
               , { id := "opt-1-4", text := "Angular", votes := 3 } ],
             createdBy := "user-1",
             votedBy := [] ++ ["user-42"] },
       { seedStore with polls := some ([] ++
          (Poll.mk "poll-1" "What is your favorite frontend framework?"
            ([ { id := "opt-1-1", text := "React", votes := 15 } ] ++
               { id := "opt-1-2", text := "Vue", votes := 8 + 1 } ::
               [ { id := "opt-1-3", text := "Svelte", votes := 12 }
               , { id := "opt-1-4", text := "Angular", votes := 3 } ])
            "user-1" ["user-42"]) ::
          [ initialPolls.get ⟨1, by decide⟩ ]) }) := by
  have h := C3_castVote_success seedStore "poll-1" "opt-1-2" "user-42"
    [] [ initialPolls.get ⟨1, by decide⟩ ]
    (initialPolls.get ⟨0, by decide⟩)
    [ { id := "opt-1-1", text := "React", votes := 15 } ]
    [ { id := "opt-1-3", text := "Svelte", votes := 12 }
    , { id := "opt-1-4", text := "Angular", votes := 3 } ]
    { id := "opt-1-2", text := "Vue", votes := 8 }
    (by decide) (by decide) (by decide) (by decide) (by decide) (by decide) (by decide)
  exact h

/-- C4: a user already recorded in a poll's `votedBy` always receives the
"already voted" `ConflictError`, whatever the option id — castVote checks
vote membership before option validity. -/
theorem C4_conflict_before_option (s : Storage) (pollId optionId userId : String)
    (poll : Poll)
    (hfind : (getPolls s).find? (fun p => p.id == pollId) = some poll)
    (hvoted : userId ∈ poll.votedBy) :
    castVote s pollId optionId userId =
      (.error (.ConflictError "You have already voted on this poll."), s) := by
  have hcont : poll.votedBy.contains userId = true := by
    simpa using hvoted
  simp only [castVote, hfind, hcont, if_true]

/-- Witness for C4: after the scenario vote on `poll-1` by `user-42`, a
repeat vote by the same user naming the bogus option id "no-such-option"
fails with the "already voted" error, not the option error. -/
theorem C4_conflict_before_option_witness :
    castVote (castVote seedStore "poll-1" "opt-1-2" "user-42").2
        "poll-1" "no-such-option" "user-42" =
      (.error (.ConflictError "You have already voted on this poll."),
       (castVote seedStore "poll-1" "opt-1-2" "user-42").2) := by
  exact C4_conflict_before_option _ _ _ _
    { id := "poll-1",
      question := "What is your favorite frontend framework?",
      options :=
        [ { id := "opt-1-1", text := "React", votes := 15 }
        , { id := "opt-1-2", text := "Vue", votes := 9 }
        , { id := "opt-1-3", text := "Svelte", votes := 12 }
        , { id := "opt-1-4", text := "Angular", votes := 3 } ],
      createdBy := "user-1",
      votedBy := ["user-42"] }
    (by decide) (by decide)

/-- C5: the failures of `castVote` are exactly `NotFoundError` when no
stored poll has id `pollId`, `ConflictError` when the resolved poll already
lists `userId` in `votedBy`, and `ValidationError` when the resolved poll
does not contain `optionId`; and every failing call leaves storage (hence
every vote count) unchanged. -/
theorem C5_castVote_failures (s : Storage) (pollId optionId userId : String) :
    ((∀ p ∈ getPolls s, p.id ≠ pollId) →
      castVote s pollId optionId userId =
        (.error (.NotFoundError "Poll not found. It may have been deleted."), s)) ∧
    (∀ poll, (getPolls s).find? (fun p => p.id == pollId) = some poll →
      userId ∈ poll.votedBy →
      castVote s pollId optionId userId =
        (.error (.ConflictError "You have already voted on this poll."), s)) ∧
    (∀ poll, (getPolls s).find? (fun p => p.id == pollId) = some poll →
      userId ∉ poll.votedBy → (∀ o ∈ poll.options, o.id ≠ optionId) →
      castVote s pollId optionId userId =
        (.error (.ValidationError "Invalid option selected."), s)) ∧
    (∀ e s', castVote s pollId optionId userId = (.error e, s') →
      s' = s ∧
      ((e = .NotFoundError "Poll not found. It may have been deleted." ∧
          ∀ p ∈ getPolls s, p.id ≠ pollId) ∨
       (∃ poll, (getPolls s).find? (fun p => p.id == pollId) = some poll ∧
          userId ∈ poll.votedBy ∧
          e = .ConflictError "You have already voted on this poll.") ∨
       (∃ poll, (getPolls s).find? (fun p => p.id == pollId) = some poll ∧
          userId ∉ poll.votedBy ∧ (∀ o ∈ poll.options, o.id ≠ optionId) ∧
          e = .ValidationError "Invalid option selected."))) := by
  refine ⟨?_, ?_, ?_, ?_⟩
  · intro hnone
    have hfind : (getPolls s).find? (fun p => p.id == pollId) = none := by
      rw [List.find?_eq_none]
      intro p hp
      simp [hnone p hp]
    simp only [castVote, hfind]
  · intro poll hfind hvoted
    have hcont : poll.votedBy.contains userId = true := by simpa using hvoted
    simp only [castVote, hfind, hcont, if_true]
  · intro poll hfind hvoted hopt
    have hcont : poll.votedBy.contains userId = false := by simpa using hvoted
    have hfindo : poll.options.find? (fun q => q.id == optionId) = none := by
      rw [List.find?_eq_none]
      intro q hq
      simp [hopt q hq]
    simp only [castVote, hfind, hcont, Bool.false_eq_true, if_false, hfindo]
  · intro e s' heq
    rcases hfind : (getPolls s).find? (fun p => p.id == pollId) with _ | poll
    · simp only [castVote, hfind] at heq
      obtain ⟨he, hs⟩ := Prod.mk.injEq .. ▸ heq
      refine ⟨hs.symm ▸ rfl, Or.inl ⟨by exact (Except.error.injEq .. ▸ he).symm ▸ rfl, ?_⟩⟩
      · intro p hp
        have := List.find?_eq_none.mp hfind p hp
        simpa using this
    · rcases hcont : poll.votedBy.contains userId with _ | _
      · rcases hfindo : poll.options.find? (fun q => q.id == optionId) with _ | o
        · simp only [castVote, hfind, hcont, Bool.false_eq_true, if_false, hfindo] at heq
          obtain ⟨he, hs⟩ := Prod.mk.injEq .. ▸ heq
          refine ⟨hs.symm ▸ rfl, Or.inr (Or.inr ⟨poll, hfind, ?_, ?_, ?_⟩)⟩
          · intro hmem
            have : poll.votedBy.contains userId = true := by simpa using hmem
            rw [hcont] at this
            exact Bool.false_ne_true this
          · intro q hq
            have := List.find?_eq_none.mp hfindo q hq
            simpa using this
          · exact (Except.error.injEq .. ▸ he).symm ▸ rfl
        · simp only [castVote, hfind, hcont, Bool.false_eq_true, if_false, hfindo] at heq
          exact absurd (Prod.mk.injEq .. ▸ heq).1 (by simp)
      · simp only [castVote, hfind, hcont, if_true] at heq
        obtain ⟨he, hs⟩ := Prod.mk.injEq .. ▸ heq
        refine ⟨hs.symm ▸ rfl, Or.inr (Or.inl ⟨poll, hfind, ?_, ?_⟩)⟩
        · have : poll.votedBy.contains userId = true := hcont
          simpa using this
        · exact (Except.error.injEq .. ▸ he).symm ▸ rfl

/-- Witness for C5: voting on the absent poll id "poll-9" in the seed store
fails with the not-found error and leaves the store untouched. -/
theorem C5_castVote_failures_witness :
    castVote seedStore "poll-9" "opt-1-1" "user-42" =
      (.error (.NotFoundError "Poll not found. It may have been deleted."), seedStore) :=
  (C5_castVote_failures seedStore "poll-9" "opt-1-1" "user-42").1 (by decide)

/-- Helper: on valid input (non-blank trimmed question, at least two
options, every option non-blank after trimming) `createPoll` returns the
freshly built poll and appends it to the stored collection. -/
theorem createPoll_valid_eq (s : Storage) (question : String)
    (options : List String) (userId : String) (now : Nat)
    (hq : strTrim question ≠ "") (hlen : 2 ≤ options.length)
    (hopts : ∀ opt ∈ options, strTrim opt ≠ "") :
    createPoll s question options userId now =
      (.ok (mkNewPoll question options userId now),
       { s with polls := some (getPolls s ++ [mkNewPoll question options userId now]) }) := by
  have h1 : (strTrim question == "") = false := beq_eq_false_iff_ne.mpr hq
  have h2 : decide (options.length < 2) = false := by
    simp [Nat.not_lt.mpr hlen]
  have h3 : options.any (fun opt => strTrim opt == "") = false := by
    rw [List.any_eq_false]
    intro opt hopt
    simp [hopts opt hopt]
  simp only [createPoll, h1, h2, h3, Bool.or_self, Bool.or_false, Bool.false_eq_true,
    if_false]

/-- C2 amended: `createPoll` performs no discarding of blank option strings
— any empty or whitespace-only option makes the whole call fail with the
validation error; the call succeeds (appending a poll with one option per
input string) precisely on a non-blank question and at least two options
that are all non-blank after trimming. -/
theorem C2_amended_no_discard (s : Storage) (question : String)
    (options : List String) (userId : String) (now : Nat) :
    ((∃ opt ∈ options, strTrim opt = "") →
      createPoll s question options userId now =
        (.error (.ValidationError
          "A poll requires a question and at least two non-empty options."), s)) ∧
    (strTrim question ≠ "" → 2 ≤ options.length →
      (∀ opt ∈ options, strTrim opt ≠ "") →
      ∃ poll, createPoll s question options userId now =
        (.ok poll, { s with polls := some (getPolls s ++ [poll]) }) ∧
        poll.options.length = options.length) := by
  constructor
  · rintro ⟨opt, hmem, hblank⟩
    have h3 : options.any (fun q => strTrim q == "") = true := by
      rw [List.any_eq_true]
      exact ⟨opt, hmem, by simp [hblank]⟩
    simp only [createPoll, h3, Bool.or_true, if_true]
  · intro hq hlen hopts
    refine ⟨mkNewPoll question options userId now,
      createPoll_valid_eq s question options userId now hq hlen hopts, ?_⟩
    simp [mkNewPoll]

/-- Witness for C2 amended, first at the spec scenario's blank option, then
at its blank-free repair. -/
theorem C2_amended_no_discard_witness :
    (createPoll seedStore "Lunch?" ["Pizza", "", "Tacos", "  "] "user-7" 0 =
      (.error (.ValidationError
        "A poll requires a question and at least two non-empty options."), seedStore)) ∧
    ∃ poll, createPoll seedStore "Lunch?" ["Pizza", "Tacos"] "user-7" 0 =
      (.ok poll, { seedStore with
        polls := some (getPolls seedStore ++ [poll]) }) ∧
      poll.options.length = (["Pizza", "Tacos"] : List String).length :=
  ⟨(C2_amended_no_discard seedStore "Lunch?" ["Pizza", "", "Tacos", "  "] "user-7" 0).1
      ⟨"", by decide, by decide⟩,
   (C2_amended_no_discard seedStore "Lunch?" ["Pizza", "Tacos"] "user-7" 0).2
      (by decide) (by decide) (by decide)⟩

/-- C6 amended: on valid input each returned `PollOption` carries as its
text the original input option string verbatim — validation guarantees the
string is non-blank after trimming, but no trimming is applied to the
stored text. -/
theorem C6_amended_verbatim_texts (s : Storage) (question : String)
    (options : List String) (userId : String) (now : Nat)
    (hq : strTrim question ≠ "") (hlen : 2 ≤ options.length)
    (hopts : ∀ opt ∈ options, strTrim opt ≠ "") :
    ∃ poll, (createPoll s question options userId now).1 = .ok poll ∧
      poll.options.map PollOption.text = options ∧
      ∀ o ∈ poll.options, strTrim o.text ≠ "" := by
  refine ⟨mkNewPoll question options userId now, ?_, ?_, ?_⟩
  · rw [createPoll_valid_eq s question options userId now hq hlen hopts]
  · simp only [mkNewPoll, List.map_map, Function.comp]
    exact List.enum_map_snd options
  · intro o ho
    simp only [mkNewPoll, List.mem_map] at ho
    obtain ⟨io, hio, rfl⟩ := ho
    exact hopts io.2 (List.getElem?_mem (List.mem_enum_iff_getElem?.mp hio))

/-- Witness for C6 amended at an input whose first option carries
surrounding whitespace. -/
theorem C6_amended_verbatim_texts_witness :
    strTrim "Q" ≠ "" ∧
    ∃ poll, (createPoll seedStore "Q" [" Pizza ", "Tacos"] "user-7" 0).1 = .ok poll ∧
      poll.options.map PollOption.text = [" Pizza ", "Tacos"] ∧
      ∀ o ∈ poll.options, strTrim o.text ≠ "" :=
  ⟨by decide,
   C6_amended_verbatim_texts seedStore "Q" [" Pizza ", "Tacos"] "user-7" 0
     (by decide) (by decide) (by decide)⟩

/-- C9: on valid input `createPoll` returns a poll whose option vote counts
are all zero and whose `votedBy` is empty, and appends it at the end of the
stored collection: the new `getPolls` is the old sequence, unchanged and in
order, with the new poll as last element. -/
theorem C9_createPoll_appends (s : Storage) (question : String)
    (options : List String) (userId : String) (now : Nat)
    (hq : strTrim question ≠ "") (hlen : 2 ≤ options.length)
    (hopts : ∀ opt ∈ options, strTrim opt ≠ "") :
    ∃ poll, (createPoll s question options userId now).1 = .ok poll ∧
      (∀ o ∈ poll.options, o.votes = 0) ∧
      poll.votedBy = [] ∧
      getPolls (createPoll s question options userId now).2 =
        getPolls s ++ [poll] := by
  refine ⟨mkNewPoll question options userId now, ?_, ?_, ?_, ?_⟩
  · rw [createPoll_valid_eq s question options userId now hq hlen hopts]
  · intro o ho
    simp only [mkNewPoll, List.mem_map] at ho
    obtain ⟨io, _, rfl⟩ := ho
    rfl
  · rfl
  · rw [createPoll_valid_eq s question options userId now hq hlen hopts]
    rfl

/-- Witness for C9 at a two-option poll created over the seed store. -/
theorem C9_createPoll_appends_witness :
    strTrim "Lunch?" ≠ "" ∧
    ∃ poll, (createPoll seedStore "Lunch?" ["Pizza", "Tacos"] "user-7" 0).1 = .ok poll ∧
      (∀ o ∈ poll.options, o.votes = 0) ∧
      poll.votedBy = [] ∧
      getPolls (createPoll seedStore "Lunch?" ["Pizza", "Tacos"] "user-7" 0).2 =
        getPolls seedStore ++ [poll] :=
  ⟨by decide,
   C9_createPoll_appends seedStore "Lunch?" ["Pizza", "Tacos"] "user-7" 0
     (by decide) (by decide) (by decide)⟩

/-- Helper: the poll built by `createPoll` has total vote count zero. -/
theorem sumVotes_mkNewPoll (question : String) (options : List String)
    (userId : String) (now : Nat) :
    sumVotes (mkNewPoll question options userId now) = 0 := by
  simp only [sumVotes, mkNewPoll, List.map_map]
  apply List.sum_eq_zero
  intro x hx
  simp only [List.mem_map, Function.comp] at hx
  obtain ⟨io, _, rfl⟩ := hx
  rfl

/-- Helper: an element of `setPoll`'s result is the replacement or one of
the original elements. -/
theorem mem_setPoll {pollId : String} {updated p : Poll} {l : List Poll}
    (h : p ∈ setPoll pollId updated l) : p = updated ∨ p ∈ l := by
  induction l with
  | nil => simp [setPoll] at h
  | cons a as ih =>
    simp only [setPoll] at h
    by_cases ha : (a.id == pollId) = true
    · rw [if_pos ha] at h
      rcases List.mem_cons.mp h with h1 | h1
      · exact Or.inl h1
      · exact Or.inr (List.mem_cons_of_mem _ h1)
    · rw [if_neg ha] at h
      rcases List.mem_cons.mp h with h1 | h1
      · exact Or.inr (h1 ▸ List.mem_cons_self a as)
      · rcases ih h1 with h2 | h2
        · exact Or.inl h2
        · exact Or.inr (List.mem_cons_of_mem _ h2)

/-- Helper: when some option of the list matches, `voteOption` raises the
total vote count by exactly one. -/
theorem sumVotes_voteOption (optionId : String) (os : List PollOption)
    (h : ∃ o ∈ os, (o.id == optionId) = true) :
    ((voteOption optionId os).map PollOption.votes).sum =
      (os.map PollOption.votes).sum + 1 := by
  induction os with
  | nil => simp at h
  | cons a rest ih =>
    by_cases ha : (a.id == optionId) = true
    · simp only [voteOption, ha, if_true, List.map_cons, List.sum_cons]
      omega
    · obtain ⟨o, ho, hoid⟩ := h
      have hmem : o ∈ rest := by
        rcases List.mem_cons.mp ho with rfl | h2
        · exact absurd hoid ha
        · exact h2
      have ha' : (a.id == optionId) = false := by
        rw [Bool.eq_false_iff]
        exact fun hc => ha hc
      simp only [voteOption, ha', Bool.false_eq_true, if_false, List.map_cons,
        List.sum_cons]
      rw [ih ⟨o, hmem, hoid⟩]
      omega

/-- C1 amended: the sum-of-votes-equals-voters invariant is preserved by
every completed `createPoll` and `castVote` — any store in which every poll
satisfies it still satisfies it after either operation succeeds, the new
poll starting at zero on both sides — but the invariant does not hold after
seeding, because the seed polls carry nonzero vote counts over an empty
`votedBy`. -/
theorem C1_amended_invariant_preserved (s : Storage)
    (hinv : ∀ p ∈ getPolls s, sumVotes p = p.votedBy.length) :
    (∀ question options userId now poll s',
      createPoll s question options userId now = (.ok poll, s') →
      ∀ p ∈ getPolls s', sumVotes p = p.votedBy.length) ∧
    (∀ pollId optionId userId poll s',
      castVote s pollId optionId userId = (.ok poll, s') →
      ∀ p ∈ getPolls s', sumVotes p = p.votedBy.length) := by
  constructor
  · intro question options userId now poll s' heq p hp
    simp only [createPoll] at heq
    split at heq
    · exact absurd heq (by simp)
    · rw [Prod.mk.injEq, Except.ok.injEq] at heq
      obtain ⟨h1, h2⟩ := heq
      subst h2
      simp only [getPolls] at hp
      rcases List.mem_append.mp hp with hold | hnew
      · exact hinv p hold
      · have hpn : p = mkNewPoll question options userId now := by simpa using hnew
        subst hpn
        rw [sumVotes_mkNewPoll]
        rfl
  · intro pollId optionId userId poll s' heq p hp
    rcases hfind : (getPolls s).find? (fun q => q.id == pollId) with _ | poll0
    · simp only [castVote, hfind] at heq
      exact absurd (Prod.mk.injEq .. ▸ heq).1 (by simp)
    · rcases hcont : poll0.votedBy.contains userId with _ | _
      · rcases hfindo : poll0.options.find? (fun q => q.id == optionId) with _ | o0
        · simp only [castVote, hfind, hcont, Bool.false_eq_true, if_false, hfindo] at heq
          exact absurd (Prod.mk.injEq .. ▸ heq).1 (by simp)
        · simp only [castVote, hfind, hcont, Bool.false_eq_true, if_false, hfindo] at heq
          rw [Prod.mk.injEq, Except.ok.injEq] at heq
          obtain ⟨h1, h2⟩ := heq
          subst h2
          simp only [getPolls] at hp
          rcases mem_setPoll hp with hpu | hold
          · subst hpu
            have hmem0 : poll0 ∈ getPolls s := List.mem_of_find?_eq_some hfind
            have hbase := hinv poll0 hmem0
            have hpo : (o0.id == optionId) = true := by
              have hps := List.find?_some hfindo
              simpa using hps
            have hex : ∃ o ∈ poll0.options, (o.id == optionId) = true :=
              ⟨o0, List.mem_of_find?_eq_some hfindo, hpo⟩
            show ((voteOption optionId poll0.options).map PollOption.votes).sum =
              (poll0.votedBy ++ [userId]).length
            rw [sumVotes_voteOption optionId poll0.options hex, List.length_append]
            simp only [sumVotes] at hbase
            simp [hbase]
          · exact hinv p hold
      · simp only [castVote, hfind, hcont, if_true] at heq
        exact absurd (Prod.mk.injEq .. ▸ heq).1 (by simp)

/-- Witness for C1 amended: the empty store satisfies the invariant and so
does the store after a completed `createPoll` over it. -/
theorem C1_amended_invariant_preserved_witness :
    (∀ p ∈ getPolls emptyStore, sumVotes p = p.votedBy.length) ∧
    (∀ q ∈ getPolls (createPoll emptyStore "Q" ["a", "b"] "u" 0).2,
      sumVotes q = q.votedBy.length) :=
  ⟨by decide,
   (C1_amended_invariant_preserved emptyStore (by decide)).1
     "Q" ["a", "b"] "u" 0 (mkNewPoll "Q" ["a", "b"] "u" 0)
     (createPoll emptyStore "Q" ["a", "b"] "u" 0).2 rfl⟩
